import Mathlib

/-!
# Verification of the RAG pipeline core

Shallow embedding of the provider-dispatch, chunking, schema-consistency,
ingestion, retrieval and credential-refresh logic of the rag-app server
(`server/src/ingestion/embeddings.py`, `server/src/ingestion/pipeline.py`,
`server/src/services/ingestion_service.py`,
`server/src/services/retrieval_service.py`,
`server/src/services/generation_service.py`,
`server/src/services/aws_refresh_service.py`).

External capabilities (the SentenceTransformer local models, the remote
embedding/generation HTTP endpoints, the pgvector storage engine and the
STS credential issuer) are passed in as explicit function parameters; all
repository logic is translated directly from the Python source.
-/

namespace Rag

/-! ## Text chunker (embeddings.py, chunk_text) -/

/-- Python `str.split()` (no separator argument): split on runs of
whitespace, discarding empty tokens.  Recursion over the character list,
`acc` holding the characters of the current word in reverse. -/
def pySplitAux : List Char → List Char → List String
  | [], [] => []
  | [], acc => [String.mk acc.reverse]
  | c :: cs, acc =>
    if c.isWhitespace then
      match acc with
      | [] => pySplitAux cs []
      | _ :: _ => String.mk acc.reverse :: pySplitAux cs []
    else pySplitAux cs (c :: acc)

/-- The `text.split()` call of chunk_text: the whitespace-separated words of `text`. -/
def pySplit (s : String) : List String := pySplitAux s.toList []

/-- The while-loop of chunk_text: starting at word index `start`, emit the
window `words[start : start + max_length]` joined by single spaces and
advance `start` by `max_length - overlap` while `start < len(words)`.
`fuel` bounds the number of iterations; chunk_text passes `words.length`,
which suffices whenever `overlap < max_length` (the loop makes at most one
iteration per word). -/
def chunkLoop (words : List String) (max_length overlap : Nat) : Nat → Nat → List String
  | 0, _ => []
  | fuel + 1, start =>
    if start < words.length then
      String.intercalate " " ((words.drop start).take max_length)
        :: chunkLoop words max_length overlap fuel (start + (max_length - overlap))
    else []

/-- The same sliding-window loop at the word level: the list of word
windows whose space-joins chunk_text returns. -/
def windowLoop (words : List String) (max_length overlap : Nat) : Nat → Nat → List (List String)
  | 0, _ => []
  | fuel + 1, start =>
    if start < words.length then
      (words.drop start).take max_length
        :: windowLoop words max_length overlap fuel (start + (max_length - overlap))
    else []

/-- All windows the chunker slides over `words`. -/
def chunkWindows (words : List String) (max_length overlap : Nat) : List (List String) :=
  windowLoop words max_length overlap words.length 0

/-- Function chunk_text from embeddings.py: tokenize by whitespace, reject
`overlap >= max_length` with the ConfigurationError message, otherwise
slide the overlapping window over the words. -/
def chunk_text (text : String) (max_length overlap : Nat) : Except String (List String) :=
  let words := pySplit text
  if max_length ≤ overlap then
    .error "Overlap must be smaller than the maximum chunk length."
  else
    .ok (chunkLoop words max_length overlap words.length 0)

/-- The chunk list chunk_text returns on the success path. -/
def chunkListOf (text : String) (max_length overlap : Nat) : List String :=
  chunkLoop (pySplit text) max_length overlap (pySplit text).length 0

/-! ## Embedding dispatcher (embeddings.py, generate_embeddings) -/

/-- The process configuration consulted by the dispatchers
(`server/src/config.py` settings object). -/
structure Settings where
  embedding_provider : String
  llm_provider : String

/-- Function generate_embeddings from embeddings.py.  The provider backends
(`SentenceTransformer.encode` and the per-provider HTTP endpoints) are
external capabilities: `stEnv` maps a local sentence-transformer model
name to its embedding function, `embedEnv` maps a remote provider id to
its endpoint's embedding function.  Every branch issues one embedding
request per chunk, appending results in input order; the module-level
local model is hard-coded to "all-MiniLM-L6-v2". -/
def generate_embeddings (s : Settings) (stEnv embedEnv : String → String → List ℚ)
    (text_chunks : List String) : Except String (List (List ℚ)) :=
  if s.embedding_provider = "sentence-transformer" then
    .ok (text_chunks.map (stEnv "all-MiniLM-L6-v2"))
  else if s.embedding_provider = "openai" then
    .ok (text_chunks.map (embedEnv "openai"))
  else if s.embedding_provider = "bedrock" then
    .ok (text_chunks.map (embedEnv "bedrock"))
  else if s.embedding_provider = "huggingface" then
    .ok (text_chunks.map (embedEnv "huggingface"))
  else if s.embedding_provider = "cohere" then
    .ok (text_chunks.map (embedEnv "cohere"))
  else
    .error ("Embedding provider not supported: " ++ s.embedding_provider)

/-- The provider ids for which generate_embeddings has a dispatch branch. -/
def generateSupported : List String :=
  ["sentence-transformer", "openai", "bedrock", "huggingface", "cohere"]

/-! ## Schema manager (ingestion_service.py) -/

/-- Function detect_embedding_dim from ingestion_service.py: issue one embedding
call with the probe string (`example_text`, default "test") to the
configured provider's endpoint and return the resulting vector's length.
Branches exist for bedrock, openai, huggingface, cohere and google only;
any other provider raises the unsupported-provider ValueError. -/
def detect_embedding_dim (example_text : String) (provider : String)
    (embedEnv : String → String → List ℚ) : Except String Nat :=
  if provider = "bedrock" then .ok (embedEnv "bedrock" example_text).length
  else if provider = "openai" then .ok (embedEnv "openai" example_text).length
  else if provider = "huggingface" then .ok (embedEnv "huggingface" example_text).length
  else if provider = "cohere" then .ok (embedEnv "cohere" example_text).length
  else if provider = "google" then .ok (embedEnv "google" example_text).length
  else .error ("Unsupported embedding provider: " ++ provider)

/-- The provider ids for which detect_embedding_dim has a dispatch branch. -/
def detectSupported : List String :=
  ["bedrock", "openai", "huggingface", "cohere", "google"]

/-! ## Ingestion pipeline (embeddings.py process_papers, pipeline.py) -/

/-- One source document: a paper with title and summary
(the JSON records read by the ingestion pipeline). -/
structure Paper where
  title : String
  summary : String

/-- One processed paper as appended by process_papers: the original title
and summary together with the summary's chunks and their embeddings. -/
structure ProcessedPaper where
  title : String
  summary : String
  chunks : List String
  embeddings : List (List ℚ)

/-- Function process_papers from embeddings.py: for each paper, chunk its summary
and embed the chunks, accumulating the processed records in order. -/
def process_papers (s : Settings) (stEnv embedEnv : String → String → List ℚ)
    (chunk_size overlap : Nat) : List Paper → Except String (List ProcessedPaper)
  | [] => .ok []
  | paper :: rest => do
    let chunks ← chunk_text paper.summary chunk_size overlap
    let embeddings ← generate_embeddings s stEnv embedEnv chunks
    let tail ← process_papers s stEnv embedEnv chunk_size overlap rest
    pure (⟨paper.title, paper.summary, chunks, embeddings⟩ :: tail)

/-- One (title, summary, chunk, embedding) tuple of the `values` list the
ingestion code prepares for bulk insertion. -/
structure InsertValue where
  title : String
  summary : String
  chunk : String
  embedding : List ℚ

/-- One persisted row of the `papers` table (StoredPassage):
serial id, title, summary, chunk text and its embedding vector. -/
structure PaperRow where
  id : Nat
  title : String
  summary : String
  chunk : String
  embedding : List ℚ

/-- The `papers` table: a vector column of declared width `dim` and the
stored rows. -/
structure PapersTable where
  dim : Nat
  rows : List PaperRow

/-- Modelled from the spec: the storage capability (the pgvector `papers`
table, an external collaborator of this repository) accepts an insert
exactly when the inserted vector's length equals the declared column
width, appending the row with the next serial id; a mismatched width is
rejected (DimensionMismatchError surfaced by storage). -/
def insertRow (t : PapersTable) (v : InsertValue) : Except String PapersTable :=
  if v.embedding.length = t.dim then
    .ok ⟨t.dim, t.rows ++ [⟨t.rows.length + 1, v.title, v.summary, v.chunk, v.embedding⟩]⟩
  else
    .error "vector dimension mismatch"

/-- Bulk insertion (execute_values): insert the prepared value rows one after the
other into the table. -/
def bulkInsert (t : PapersTable) : List InsertValue → Except String PapersTable
  | [] => .ok t
  | v :: vs => do
    let t' ← insertRow t v
    bulkInsert t' vs

/-- The values-preparation loop of rebuild_vector_db: for each processed
entry, one value row per (chunk, embedding) pair of `zip(chunks,
embeddings)`, accumulated over all entries in order (no length assertion
on this path). -/
def rebuildValuesOf : List ProcessedPaper → List InsertValue
  | [] => []
  | entry :: rest =>
    (entry.chunks.zip entry.embeddings).map
        (fun p => ⟨entry.title, entry.summary, p.1, p.2⟩)
      ++ rebuildValuesOf rest

/-- Function rebuild_vector_db from ingestion_service.py: detect the configured
provider's vector dimension with the "test" probe, process the papers
(chunk + embed), drop and recreate the `papers` table with a vector
column of exactly the detected width, and bulk-insert all prepared rows.
A failure of the dimension probe aborts the run before any processing or
insertion. -/
def rebuild_vector_db (s : Settings) (stEnv embedEnv : String → String → List ℚ)
    (papers : List Paper) (chunk_size overlap : Nat) : Except String PapersTable := do
  let dim ← detect_embedding_dim "test" s.embedding_provider embedEnv
  let processed ← process_papers s stEnv embedEnv chunk_size overlap papers
  let table : PapersTable := ⟨dim, []⟩
  bulkInsert table (rebuildValuesOf processed)

/-- The values-preparation loop of `insert_papers_to_pgvector`
(pipeline.py): per entry, assert `len(chunks) == len(embeddings)` (the
AssertionError message on mismatch) and append one value row per zipped
(chunk, embedding) pair. -/
def insertValuesOf : List ProcessedPaper → Except String (List InsertValue)
  | [] => .ok []
  | entry :: rest =>
    if entry.chunks.length = entry.embeddings.length then do
      let tail ← insertValuesOf rest
      .ok ((entry.chunks.zip entry.embeddings).map
            (fun p => ⟨entry.title, entry.summary, p.1, p.2⟩) ++ tail)
    else .error "Mismatch between chunks and embeddings length."

/-- Function insert_papers_to_pgvector from pipeline.py, reporting the number of
rows inserted (the `len(values)` the function prints). -/
def insert_papers_to_pgvector (data : List ProcessedPaper) : Except String Nat := do
  let values ← insertValuesOf data
  pure values.length

/-- Function run_pipeline from pipeline.py restricted to its ingestion core:
process the papers and insert the resulting rows, reporting the count. -/
def run_ingestion (s : Settings) (stEnv embedEnv : String → String → List ℚ)
    (papers : List Paper) (chunk_size overlap : Nat) : Except String Nat := do
  let processed ← process_papers s stEnv embedEnv chunk_size overlap papers
  insert_papers_to_pgvector processed

/-- The processed records a successful process_papers run produces when
each chunk is embedded by `f`: per paper, the summary's chunks and their
embeddings in order. -/
def processedOf (f : String → List ℚ) (cs o : Nat) (papers : List Paper) :
    List ProcessedPaper :=
  papers.map fun p =>
    ⟨p.title, p.summary, chunkListOf p.summary cs o, (chunkListOf p.summary cs o).map f⟩

/-! ## Generation dispatcher (generation_service.py) -/

/-- The uniform result shape of call_llm: the response text and the
optional tokens-per-second figure (None for providers that do not report
usage). -/
structure GenerationResult where
  response : String
  response_tokens_per_second : Option ℚ

/-- The body of call_llm's try-block: dispatch on `settings.llm_provider`
to the corresponding backend.  Each backend call together with its
response parsing is an external capability (`backend provider prompt`)
that either yields a GenerationResult or fails with the exception's
message; an unknown provider id raises the unsupported-provider
ValueError. -/
def call_llm_body (s : Settings) (backend : String → String → Except String GenerationResult)
    (prompt : String) : Except String GenerationResult :=
  if s.llm_provider = "openai" then backend "openai" prompt
  else if s.llm_provider = "bedrock" then backend "bedrock" prompt
  else if s.llm_provider = "ollama" then backend "ollama" prompt
  else if s.llm_provider = "huggingface" then backend "huggingface" prompt
  else if s.llm_provider = "cohere" then backend "cohere" prompt
  else if s.llm_provider = "anthropic" then backend "anthropic" prompt
  else if s.llm_provider = "azure" then backend "azure" prompt
  else if s.llm_provider = "google" then backend "google" prompt
  else .error ("Unsupported LLM_PROVIDER: " ++ s.llm_provider)

/-- Function call_llm from generation_service.py: the entire dispatch runs inside
try/except; any raised error is converted into a GenerationResult whose
response is the error-flavored string and whose tokens-per-second field
is None, so the function itself never raises. -/
def call_llm (s : Settings) (backend : String → String → Except String GenerationResult)
    (prompt : String) : GenerationResult :=
  match call_llm_body s backend prompt with
  | .ok r => r
  | .error e => ⟨"⚠️ Error: " ++ e, none⟩

/-! ## Credential cache (aws_refresh_service.py) -/

/-- The temporary STS credential triple cached by CredentialStore. -/
structure AwsCreds where
  access_key : String
  secret_key : String
  session_token : String

/-- The class-level state of CredentialStore: the cached credential dict
(empty before the first refresh) and the recorded expiry timestamp. -/
structure CredentialStore where
  cache : Option AwsCreds
  expiration : ℚ

/-- Method CredentialStore.refresh: obtain fresh STS credentials (`fresh`, the
external `sts.get_session_token` result), overwrite the cache, and record
the expiry as `time.time() + duration - 60` (the 60-second safety buffer
before nominal expiry). -/
def CredentialStore.refresh (_st : CredentialStore) (now : ℚ) (fresh : AwsCreds)
    (duration : ℚ) : CredentialStore :=
  ⟨some fresh, now + duration - 60⟩

/-- Method CredentialStore.get_credentials: refresh (with the default duration
3600) exactly when the cache is empty or the current time has reached the
recorded expiry, then return the cached credentials.  The returned Bool
records whether this call performed a refresh. -/
def CredentialStore.get_credentials (st : CredentialStore) (now : ℚ) (fresh : AwsCreds) :
    CredentialStore × Option AwsCreds × Bool :=
  if st.cache.isNone ∨ st.expiration ≤ now then
    let st' := st.refresh now fresh 3600
    (st', st'.cache, true)
  else
    (st, st.cache, false)

/-! ## Retrieval engine (retrieval_service.py) -/

/-- The projection returned per retrieved row: id, title, chunk and the
distance-based similarity score computed at query time. -/
structure RetrievedDocument where
  id : Nat
  title : String
  chunk : String
  similarity_score : ℚ

/-- Insert one scored row into an ascending-by-score list. -/
def sortedInsertRD (r : RetrievedDocument) : List RetrievedDocument → List RetrievedDocument
  | [] => [r]
  | x :: xs =>
    if r.similarity_score ≤ x.similarity_score then r :: x :: xs
    else x :: sortedInsertRD r xs

/-- Model of the storage's `ORDER BY similarity ASC`: sort the scored rows
by ascending similarity score. -/
def orderBySim : List RetrievedDocument → List RetrievedDocument
  | [] => []
  | x :: xs => sortedInsertRD x (orderBySim xs)

/-- Function retrieve_top_k_chunks from retrieval_service.py: embed the query
with the hard-coded local SentenceTransformer model "all-MiniLM-L6-v2"
(get_embedding_model), score every stored row by the distance of its
embedding to the query embedding (the pgvector `<=>` operator, the
external capability `dist`), order ascending and keep the first `top_k`
(`LIMIT top_k`).  An empty table yields an empty result, not an error. -/
def retrieve_top_k_chunks (stEnv : String → String → List ℚ)
    (dist : List ℚ → List ℚ → ℚ) (rows : List PaperRow)
    (query : String) (top_k : Nat) : List RetrievedDocument :=
  let query_embedding := stEnv "all-MiniLM-L6-v2" query
  let scored := rows.map fun r =>
    RetrievedDocument.mk r.id r.title r.chunk (dist r.embedding query_embedding)
  (orderBySim scored).take top_k

/-- A retrieval run together with its ambient process configuration.
retrieval_service.py never consults the settings object (in particular
not `settings.embedding_provider`), which this wrapper makes explicit. -/
def retrieval_run (s : Settings) (stEnv : String → String → List ℚ)
    (dist : List ℚ → List ℚ → ℚ) (rows : List PaperRow)
    (query : String) (top_k : Nat) : List RetrievedDocument :=
  retrieve_top_k_chunks stEnv dist rows query top_k

/-- The query embedding computed by a retrieval run under configuration
`s`: always the hard-coded local model, whatever `s` says. -/
def retrieval_query_embedding (s : Settings) (stEnv : String → String → List ℚ)
    (query : String) : List ℚ :=
  stEnv "all-MiniLM-L6-v2" query

/-! ## Chunker lemmas -/

/-- chunkLoop emits exactly the space-joins of windowLoop's windows. -/
lemma chunkLoop_eq_map (words : List String) (m o : Nat) :
    ∀ fuel start, chunkLoop words m o fuel start
      = (windowLoop words m o fuel start).map (String.intercalate " ") := by
  intro fuel
  induction fuel with
  | zero => intro start; rfl
  | succ fuel ih =>
    intro start
    simp only [chunkLoop, windowLoop]
    by_cases h : start < words.length
    · rw [if_pos h, if_pos h, List.map_cons, ih]
    · rw [if_neg h, if_neg h, List.map_nil]

/-- With enough fuel, the loop emits one window per slide of the closed
form `ceil((n - start) / (max_length - overlap))`. -/
lemma windowLoop_length (words : List String) (m o : Nat) (hstep : 0 < m - o) :
    ∀ fuel start, words.length ≤ start + fuel * (m - o) →
      (windowLoop words m o fuel start).length
        = (words.length - start + (m - o) - 1) / (m - o) := by
  intro fuel
  induction fuel with
  | zero =>
    intro start h
    simp only [windowLoop, List.length_nil]
    have e : words.length - start = 0 := by omega
    rw [e]
    exact (Nat.div_eq_of_lt (by omega)).symm
  | succ fuel ih =>
    intro start h
    rw [Nat.succ_mul] at h
    simp only [windowLoop]
    by_cases hs : start < words.length
    · rw [if_pos hs, List.length_cons, ih (start + (m - o)) (by omega)]
      have e2 : words.length - start + (m - o) - 1
          = (words.length - start - 1) + (m - o) := by omega
      rw [e2, Nat.add_div_right _ hstep]
      rcases Nat.le_total (m - o) (words.length - start) with hc | hc
      · have e1 : words.length - (start + (m - o)) + (m - o) - 1
            = words.length - start - 1 := by omega
        rw [e1]
      · have e1 : words.length - (start + (m - o)) + (m - o) - 1 = (m - o) - 1 := by
          omega
        rw [e1, Nat.div_eq_of_lt (by omega), Nat.div_eq_of_lt (by omega)]
    · rw [if_neg hs]
      simp only [List.length_nil]
      have e : words.length - start = 0 := by omega
      rw [e]
      exact (Nat.div_eq_of_lt (by omega)).symm

/-- With enough fuel, every window whose start is reachable from `start`
by whole slides is among the loop's output. -/
lemma windowLoop_mem (words : List String) (m o : Nat) (hstep : 0 < m - o) :
    ∀ fuel start s, words.length ≤ start + fuel * (m - o) →
      start ≤ s → s < words.length → (s - start) % (m - o) = 0 →
      (words.drop s).take m ∈ windowLoop words m o fuel start := by
  intro fuel
  induction fuel with
  | zero =>
    intro start s h hs1 hs2 _
    omega
  | succ fuel ih =>
    intro start s h hs1 hs2 hmod
    rw [Nat.succ_mul] at h
    have hlt : start < words.length := Nat.lt_of_le_of_lt hs1 hs2
    simp only [windowLoop, if_pos hlt]
    rcases Nat.eq_or_lt_of_le hs1 with heq | hgt
    · rw [heq]
      exact List.mem_cons_self _ _
    · obtain ⟨k, hk⟩ := Nat.dvd_of_mod_eq_zero hmod
      have hkpos : k ≠ 0 := by
        rintro rfl
        simp only [Nat.mul_zero] at hk
        omega
      obtain ⟨j, rfl⟩ : ∃ j, k = j + 1 := ⟨k - 1, by omega⟩
      rw [Nat.mul_succ] at hk
      refine List.mem_cons_of_mem _ (ih (start + (m - o)) s (by omega) (by omega) hs2 ?_)
      have e : s - (start + (m - o)) = (m - o) * j := by omega
      rw [e, Nat.mul_mod_right]

/-- Every word index is covered by the window starting at the nearest
slide position at or before it. -/
lemma chunkWindows_cover (words : List String) (m o : Nat) (ho : o < m)
    (i : Nat) (hi : i < words.length) :
    ∃ ws ∈ chunkWindows words m o, words[i] ∈ ws := by
  have hstep : 0 < m - o := by omega
  have hdm : (m - o) * (i / (m - o)) + i % (m - o) = i := Nat.div_add_mod i (m - o)
  have hml : i % (m - o) < m - o := Nat.mod_lt _ hstep
  set s := i - i % (m - o) with hs
  have hsi : s ≤ i := by omega
  have hsn : s < words.length := lt_of_le_of_lt hsi hi
  have hmod : (s - 0) % (m - o) = 0 := by
    have e : s - 0 = (m - o) * (i / (m - o)) := by omega
    rw [e, Nat.mul_mod_right]
  have hfuel : words.length ≤ 0 + words.length * (m - o) := by
    simpa using Nat.le_mul_of_pos_right words.length hstep
  have hmem := windowLoop_mem words m o hstep words.length 0 s hfuel (Nat.zero_le _)
    hsn hmod
  refine ⟨(words.drop s).take m, hmem, ?_⟩
  have h2 : i - s < (words.drop s).length := by
    rw [List.length_drop]
    omega
  have h3 : i - s < ((words.drop s).take m).length := by
    rw [List.length_take, List.length_drop]
    omega
  have hval : ((words.drop s).take m)[i - s] = words[i] := by
    rw [List.getElem_take, List.getElem_drop]
    congr 1
    omega
  rw [← hval]
  exact List.getElem_mem h3

/-- The number of windows equals the closed-form slide count. -/
lemma chunkWindows_length (words : List String) (m o : Nat) (ho : o < m) :
    (chunkWindows words m o).length
      = (words.length + (m - o) - 1) / (m - o) := by
  have hstep : 0 < m - o := by omega
  have hfuel : words.length ≤ 0 + words.length * (m - o) := by
    simpa using Nat.le_mul_of_pos_right words.length hstep
  have := windowLoop_length words m o hstep words.length 0 hfuel
  simpa [chunkWindows] using this

/-- On the success path chunk_text returns exactly the joined windows. -/
lemma chunk_text_ok (t : String) (m o : Nat) (ho : o < m) :
    chunk_text t m o
      = .ok ((chunkWindows (pySplit t) m o).map (String.intercalate " ")) := by
  simp only [chunk_text]
  rw [if_neg (by omega), chunkLoop_eq_map]
  rfl

/-! ## Ingestion lemmas -/

/-- Binding a successful Except value just applies the continuation. -/
lemma bindOk {ε α β : Type} (a : α) (f : α → Except ε β) :
    ((Except.ok a : Except ε α) >>= f) = f a := rfl

/-- The empty summary tokenizes to no words and hence to no chunks. -/
lemma chunkListOf_empty (m o : Nat) : chunkListOf "" m o = [] := rfl

/-- chunk_text on the success path returns chunkListOf. -/
lemma chunk_text_eq_ok (t : String) (m o : Nat) (ho : o < m) :
    chunk_text t m o = .ok (chunkListOf t m o) := by
  simp only [chunk_text, chunkListOf]
  rw [if_neg (by omega)]

/-- When every generate_embeddings call succeeds with the per-chunk
embedding function `f`, process_papers succeeds and produces, in order,
one processed record per paper with the summary's chunks and their
mapped embeddings. -/
lemma process_papers_ok (s : Settings) (stEnv embedEnv : String → String → List ℚ)
    (cs o : Nat) (ho : o < cs) (f : String → List ℚ)
    (hf : ∀ chunks, generate_embeddings s stEnv embedEnv chunks = .ok (chunks.map f)) :
    ∀ papers : List Paper,
      process_papers s stEnv embedEnv cs o papers = .ok (processedOf f cs o papers) := by
  intro papers
  induction papers with
  | nil => rfl
  | cons p ps ih =>
    simp only [process_papers, processedOf, List.map_cons]
    rw [chunk_text_eq_ok p.summary cs o ho]
    simp only [bindOk, hf]
    simp only [processedOf] at ih
    simp only [bindOk, ih]
    rfl

/-- When every entry's chunk and embedding lists agree in length, the
values-preparation loop succeeds and the prepared row count is the sum of
the per-entry chunk counts. -/
lemma insertValuesOf_ok :
    ∀ data : List ProcessedPaper,
      (∀ e ∈ data, e.chunks.length = e.embeddings.length) →
      ∃ values, insertValuesOf data = .ok values ∧
        values.length = (data.map fun e => e.chunks.length).sum := by
  intro data
  induction data with
  | nil => exact fun _ => ⟨[], rfl, rfl⟩
  | cons e es ih =>
    intro h
    obtain ⟨tail, htail, hlen⟩ := ih fun x hx => h x (List.mem_cons_of_mem _ hx)
    have he : e.chunks.length = e.embeddings.length := h e (List.mem_cons_self _ _)
    refine ⟨(e.chunks.zip e.embeddings).map
        (fun p => ⟨e.title, e.summary, p.1, p.2⟩) ++ tail, ?_, ?_⟩
    · simp only [insertValuesOf, if_pos he, htail, bindOk]
    · rw [List.length_append, List.length_map, List.length_zip, ← he, Nat.min_self,
        List.map_cons, List.sum_cons, hlen]

/-- map commutes with eraseIdx. -/
lemma mapEraseIdx {α β : Type} (f : α → β) :
    ∀ (l : List α) (i : Nat), (l.eraseIdx i).map f = (l.map f).eraseIdx i := by
  intro l
  induction l with
  | nil => intro i; simp [List.eraseIdx]
  | cons x xs ih =>
    intro i
    cases i with
    | zero => simp [List.eraseIdx]
    | succ j => simp [List.eraseIdx, ih j]

/-- Dropping a zero entry does not change a sum of naturals. -/
lemma sum_eraseIdx_zero :
    ∀ (l : List Nat) (i : Nat), i < l.length → l.getD i 0 = 0 →
      l.sum = (l.eraseIdx i).sum := by
  intro l
  induction l with
  | nil =>
    intro i hi _
    simp at hi
  | cons x xs ih =>
    intro i hi h0
    cases i with
    | zero =>
      rw [List.getD_cons_zero] at h0
      simp [List.eraseIdx, h0]
    | succ j =>
      rw [List.getD_cons_succ] at h0
      simp only [List.eraseIdx, List.sum_cons]
      rw [ih j (by simpa using hi) h0]

/-- Zipping a list with its own map pairs each element with its image. -/
lemma zip_map_self {α β : Type} (f : α → β) :
    ∀ l : List α, l.zip (l.map f) = l.map fun x => (x, f x) := by
  intro l
  induction l with
  | nil => rfl
  | cons x xs ih => simp [ih]

/-- Every prepared rebuild value comes from a zipped (chunk, embedding)
pair of some processed entry. -/
lemma mem_rebuildValuesOf (v : InsertValue) :
    ∀ data : List ProcessedPaper, v ∈ rebuildValuesOf data →
      ∃ e ∈ data, ∃ p ∈ e.chunks.zip e.embeddings,
        v = ⟨e.title, e.summary, p.1, p.2⟩ := by
  intro data
  induction data with
  | nil => simp [rebuildValuesOf]
  | cons e es ih =>
    intro hv
    rcases List.mem_append.mp hv with h | h
    · obtain ⟨p, hp, rfl⟩ := List.mem_map.mp h
      exact ⟨e, List.mem_cons_self _ _, p, hp, rfl⟩
    · obtain ⟨w, hw, p, hp, rfl⟩ := ih h
      exact ⟨w, List.mem_cons_of_mem _ hw, p, hp, rfl⟩

/-- Bulk insertion of rows whose vectors all match the declared column
width succeeds, preserves the width, and every stored row is either an
old row or one of the matching new rows. -/
lemma bulkInsert_ok :
    ∀ (vs : List InsertValue) (t : PapersTable),
      (∀ v ∈ vs, v.embedding.length = t.dim) →
      ∃ t', bulkInsert t vs = .ok t' ∧ t'.dim = t.dim ∧
        ∀ r ∈ t'.rows, r ∈ t.rows ∨ r.embedding.length = t.dim := by
  intro vs
  induction vs with
  | nil =>
    intro t _
    exact ⟨t, rfl, rfl, fun r hr => Or.inl hr⟩
  | cons v vs ih =>
    intro t h
    have hv : v.embedding.length = t.dim := h v (List.mem_cons_self _ _)
    obtain ⟨t', ht', hdim, hall⟩ :=
      ih ⟨t.dim, t.rows ++ [⟨t.rows.length + 1, v.title, v.summary, v.chunk, v.embedding⟩]⟩
        (fun w hw => h w (List.mem_cons_of_mem _ hw))
    refine ⟨t', ?_, hdim, ?_⟩
    · simp only [bulkInsert]
      have hrow : insertRow t v
          = .ok ⟨t.dim, t.rows
              ++ [⟨t.rows.length + 1, v.title, v.summary, v.chunk, v.embedding⟩]⟩ := by
        simp [insertRow, hv]
      rw [hrow]
      simpa [bindOk] using ht'
    · intro r hr
      rcases hall r hr with hmem | hlen
      · rcases List.mem_append.mp hmem with h1 | h1
        · exact Or.inl h1
        · right
          rcases List.mem_singleton.mp h1 with rfl
          exact hv
      · exact Or.inr hlen

/-- detect_embedding_dim on each provider shared with the dispatcher's
remote branches returns the length of that provider's probe embedding. -/
lemma detect_embedding_dim_remote (prov : String) (embedEnv : String → String → List ℚ)
    (hp : prov ∈ ["openai", "bedrock", "huggingface", "cohere"]) :
    detect_embedding_dim "test" prov embedEnv = .ok (embedEnv prov "test").length := by
  simp only [List.mem_cons, List.mem_singleton, List.not_mem_nil, or_false] at hp
  rcases hp with h | h | h | h <;> subst h <;> rfl

/-- On the remote providers shared with the Schema Manager, the
dispatcher embeds each chunk with that provider's endpoint. -/
lemma generate_embeddings_remote (s : Settings) (stEnv embedEnv : String → String → List ℚ)
    (hp : s.embedding_provider ∈ ["openai", "bedrock", "huggingface", "cohere"]) :
    ∀ chunks, generate_embeddings s stEnv embedEnv chunks
      = .ok (chunks.map (embedEnv s.embedding_provider)) := by
  simp only [List.mem_cons, List.mem_singleton, List.not_mem_nil, or_false] at hp
  intro chunks
  rcases hp with h | h | h | h <;> simp [generate_embeddings, h]

/-! ## Theorems -/

/-- C2 counterexample: the text "a b" has 2 ≤ max_length = 2 words, yet
chunk_text with overlap 1 returns two chunks, not exactly one. -/
theorem chunk_text_single_chunk_counterexample :
    (pySplit "a b").length = 2 ∧
    chunk_text "a b" 2 1 = .ok ["a b", "b"] ∧
    (["a b", "b"] : List String).length ≠ 1 := by
  refine ⟨rfl, ?_, by decide⟩
  rfl

/-- C2 (amended): for overlap < max_length, chunk_text splits on
whitespace, slides a window of max_length words forward by
max_length - overlap words until the window start reaches the word count,
and space-joins each window; empty text yields the empty sequence,
nonempty text with at most max_length - overlap words yields exactly one
chunk, every word of the input lies in some emitted window, and the
number of chunks is the closed-form slide count
`ceil(wordCount / (max_length - overlap))`. -/
theorem chunk_text_spec (t : String) (m o : Nat) (ho : o < m) :
    chunk_text t m o
      = .ok ((chunkWindows (pySplit t) m o).map (String.intercalate " ")) ∧
    chunk_text "" m o = .ok [] ∧
    (0 < (pySplit t).length → (pySplit t).length ≤ m - o →
      (chunkWindows (pySplit t) m o).length = 1) ∧
    (∀ i, (hi : i < (pySplit t).length) →
      ∃ ws ∈ chunkWindows (pySplit t) m o, (pySplit t)[i] ∈ ws) ∧
    (chunkWindows (pySplit t) m o).length
      = ((pySplit t).length + (m - o) - 1) / (m - o) := by
  have hstep : 0 < m - o := by omega
  refine ⟨chunk_text_ok t m o ho, ?_, ?_, ?_, chunkWindows_length _ m o ho⟩
  · simp only [chunk_text]
    rw [if_neg (by omega)]
    rfl
  · intro h1 h2
    rw [chunkWindows_length _ m o ho]
    have e : (pySplit t).length + (m - o) - 1 = ((pySplit t).length - 1) + (m - o) := by
      omega
    rw [e, Nat.add_div_right _ hstep, Nat.div_eq_of_lt (by omega)]
  · intro i hi
    exact chunkWindows_cover (pySplit t) m o ho i hi

/-- Witness for C2: on "a b c d e" with max_length 2, overlap 0, the
chunker succeeds, covers all five words and produces the closed-form
count of three windows. -/
theorem chunk_text_spec_witness :
    (0 < 2) ∧
    (chunk_text "a b c d e" 2 0
      = .ok ((chunkWindows (pySplit "a b c d e") 2 0).map (String.intercalate " ")) ∧
    chunk_text "" 2 0 = .ok [] ∧
    (0 < (pySplit "a b c d e").length → (pySplit "a b c d e").length ≤ 2 - 0 →
      (chunkWindows (pySplit "a b c d e") 2 0).length = 1) ∧
    (∀ i, (hi : i < (pySplit "a b c d e").length) →
      ∃ ws ∈ chunkWindows (pySplit "a b c d e") 2 0, (pySplit "a b c d e")[i] ∈ ws) ∧
    (chunkWindows (pySplit "a b c d e") 2 0).length
      = ((pySplit "a b c d e").length + (2 - 0) - 1) / (2 - 0)) :=
  ⟨by decide, chunk_text_spec "a b c d e" 2 0 (by decide)⟩

/-- C3: for every text string, chunk_text fails with the ConfigurationError
if and only if `overlap ≥ max_length`, and when it fails it fails with
exactly that error (so no chunk list is returned). -/
theorem chunk_text_error_iff (t : String) (m o : Nat) :
    ((∃ e, chunk_text t m o = .error e) ↔ m ≤ o) ∧
    (m ≤ o → chunk_text t m o
      = .error "Overlap must be smaller than the maximum chunk length.") := by
  constructor
  · constructor
    · rintro ⟨e, he⟩
      by_contra h
      simp [chunk_text, h] at he
    · intro h
      exact ⟨"Overlap must be smaller than the maximum chunk length.",
        by simp [chunk_text, h]⟩
  · intro h
    simp [chunk_text, h]

/-- Witness for C3: at max_length 1 and overlap 2 the chunker fails with
the ConfigurationError. -/
theorem chunk_text_error_iff_witness :
    chunk_text "x" 1 2 = .error "Overlap must be smaller than the maximum chunk length." :=
  (chunk_text_error_iff "x" 1 2).2 (by decide)

/-- C7: whenever the dispatch body reports a failure, call_llm does not
raise: it returns a GenerationResult whose response is the error-flavored
string and whose tokens-per-second field is absent. -/
theorem call_llm_error_path (s : Settings)
    (backend : String → String → Except String GenerationResult)
    (prompt e : String)
    (h : call_llm_body s backend prompt = .error e) :
    call_llm s backend prompt = ⟨"⚠️ Error: " ++ e, none⟩ ∧
    (call_llm s backend prompt).response = "⚠️ Error: " ++ e ∧
    (call_llm s backend prompt).response_tokens_per_second = none := by
  have hc : call_llm s backend prompt = ⟨"⚠️ Error: " ++ e, none⟩ := by
    unfold call_llm
    rw [h]
  exact ⟨hc, by rw [hc], by rw [hc]⟩

/-- Witness for C7: an openai-configured dispatcher whose backend reports
an invalid api key degrades to the visible error response. -/
theorem call_llm_error_path_witness :
    call_llm ⟨"st", "openai"⟩ (fun _ _ => .error "invalid api key") "hi"
      = ⟨"⚠️ Error: invalid api key", none⟩ :=
  (call_llm_error_path ⟨"st", "openai"⟩ (fun _ _ => .error "invalid api key") "hi"
    "invalid api key" rfl).1

/-- C8: get_credentials refreshes exactly when the cache is empty or the
current time has reached the recorded expiry; refresh records the expiry
as issue time plus the nominal lifetime minus the 60-second buffer; and
for a credential issued at `t₀` with ttl 3600, a second call at
`t₀ + 3601` triggers a refresh while a call at `t₀ + 10` does not. -/
theorem credential_refresh_spec (st : CredentialStore) (now : ℚ) (fresh c : AwsCreds)
    (t₀ : ℚ) :
    ((st.get_credentials now fresh).2.2 = true ↔ (st.cache.isNone ∨ st.expiration ≤ now)) ∧
    (∀ d : ℚ, (st.refresh now fresh d).expiration = now + d - 60) ∧
    ((((CredentialStore.mk none 0).get_credentials t₀ fresh).1.get_credentials
        (t₀ + 3601) c).2.2 = true) ∧
    ((((CredentialStore.mk none 0).get_credentials t₀ fresh).1.get_credentials
        (t₀ + 10) c).2.2 = false) := by
  have h1 : (CredentialStore.mk none 0).get_credentials t₀ fresh
      = (⟨some fresh, t₀ + 3600 - 60⟩, some fresh, true) := by
    simp [CredentialStore.get_credentials, CredentialStore.refresh]
  refine ⟨?_, fun d => rfl, ?_, ?_⟩
  · by_cases hc : st.cache.isNone ∨ st.expiration ≤ now
    · unfold CredentialStore.get_credentials
      rw [if_pos hc]
      simp only [Option.isNone_iff_eq_none] at hc
      simpa using hc
    · unfold CredentialStore.get_credentials
      rw [if_neg hc]
      simp only [Option.isNone_iff_eq_none] at hc
      simpa using hc
  · rw [h1]
    show (CredentialStore.get_credentials _ _ _).2.2 = true
    unfold CredentialStore.get_credentials
    rw [if_pos (Or.inr (show (t₀ + 3600 - 60 : ℚ) ≤ t₀ + 3601 by linarith))]
  · rw [h1]
    show (CredentialStore.get_credentials _ _ _).2.2 = false
    unfold CredentialStore.get_credentials
    rw [if_neg ?hneg]
    case hneg =>
      rintro (habs | habs)
      · simp at habs
      · simp only at habs
        linarith

/-- Membership in an insertion step of the score sort. -/
lemma mem_sortedInsertRD (r x : RetrievedDocument) :
    ∀ l, x ∈ sortedInsertRD r l ↔ x = r ∨ x ∈ l := by
  intro l
  induction l with
  | nil => simp [sortedInsertRD]
  | cons y ys ih =>
    simp only [sortedInsertRD]
    by_cases h : r.similarity_score ≤ y.similarity_score
    · rw [if_pos h]
      simp [List.mem_cons]
    · rw [if_neg h]
      simp [List.mem_cons, ih]
      tauto

/-- Inserting into an ascending list keeps it ascending. -/
lemma sortedInsertRD_pairwise (r : RetrievedDocument) :
    ∀ l, l.Pairwise (fun a b => a.similarity_score ≤ b.similarity_score) →
      (sortedInsertRD r l).Pairwise
        (fun a b => a.similarity_score ≤ b.similarity_score) := by
  intro l
  induction l with
  | nil =>
    intro _
    simp [sortedInsertRD]
  | cons y ys ih =>
    intro hp
    rw [List.pairwise_cons] at hp
    obtain ⟨hy, hys⟩ := hp
    simp only [sortedInsertRD]
    by_cases h : r.similarity_score ≤ y.similarity_score
    · rw [if_pos h]
      refine List.Pairwise.cons ?_ (List.Pairwise.cons hy hys)
      intro z hz
      rcases List.mem_cons.mp hz with rfl | hz
      · exact h
      · exact le_trans h (hy z hz)
    · rw [if_neg h]
      refine List.Pairwise.cons ?_ (ih hys)
      intro z hz
      rcases (mem_sortedInsertRD r z ys).mp hz with rfl | hz
      · exact le_of_not_le h
      · exact hy z hz

/-- The ORDER BY model produces an ascending list. -/
lemma orderBySim_pairwise :
    ∀ l, (orderBySim l).Pairwise
      (fun a b => a.similarity_score ≤ b.similarity_score) := by
  intro l
  induction l with
  | nil => simp [orderBySim]
  | cons x xs ih => exact sortedInsertRD_pairwise x _ ih

/-- C4: retrieve_top_k_chunks returns at most top_k rows, ordered by
ascending distance of the stored embedding to the query embedding; for
top_k = 0 the result is empty, and an empty table yields the empty
sequence rather than an error. -/
theorem retrieve_top_k_spec (stEnv : String → String → List ℚ)
    (dist : List ℚ → List ℚ → ℚ) (rows : List PaperRow) (q : String) (k : Nat) :
    (retrieve_top_k_chunks stEnv dist rows q k).length ≤ k ∧
    (retrieve_top_k_chunks stEnv dist rows q k).Pairwise
      (fun a b => a.similarity_score ≤ b.similarity_score) ∧
    (k = 0 → retrieve_top_k_chunks stEnv dist rows q k = []) ∧
    (rows = [] → retrieve_top_k_chunks stEnv dist rows q k = []) := by
  refine ⟨?_, ?_, ?_, ?_⟩
  · simp only [retrieve_top_k_chunks, List.length_take]
    exact min_le_left _ _
  · exact List.Pairwise.sublist (List.take_sublist _ _) (orderBySim_pairwise _)
  · intro hk
    simp [retrieve_top_k_chunks, hk]
  · intro hr
    simp [retrieve_top_k_chunks, hr, orderBySim]

/-- Witness for C4: with an empty table and top_k = 0 the retrieval
result is empty. -/
theorem retrieve_top_k_spec_witness :
    retrieve_top_k_chunks (fun _ _ => []) (fun _ _ => 0) [] "q" 0 = [] :=
  (retrieve_top_k_spec (fun _ _ => []) (fun _ _ => 0) [] "q" 0).2.2.1 rfl

/-- Every supported dispatch branch of generate_embeddings embeds the
chunks one by one with the selected provider's embedding function,
appending results in input order. -/
lemma generate_embeddings_branch (s : Settings) (stEnv embedEnv : String → String → List ℚ)
    (hp : s.embedding_provider ∈ generateSupported) :
    ∃ f : String → List ℚ, ∀ chunks : List String,
      generate_embeddings s stEnv embedEnv chunks = .ok (chunks.map f) := by
  simp only [generateSupported, List.mem_cons, List.mem_singleton,
    List.not_mem_nil, or_false] at hp
  rcases hp with h | h | h | h | h
  · exact ⟨stEnv "all-MiniLM-L6-v2", fun chunks => by simp [generate_embeddings, h]⟩
  · exact ⟨embedEnv "openai", fun chunks => by simp [generate_embeddings, h]⟩
  · exact ⟨embedEnv "bedrock", fun chunks => by simp [generate_embeddings, h]⟩
  · exact ⟨embedEnv "huggingface", fun chunks => by simp [generate_embeddings, h]⟩
  · exact ⟨embedEnv "cohere", fun chunks => by simp [generate_embeddings, h]⟩

/-- C6 (G1): for every supported provider, the embedding dispatcher
returns one embedding per input and the i-th output embedding is the
embedding of the i-th input text. -/
theorem generate_embeddings_order (s : Settings) (stEnv embedEnv : String → String → List ℚ)
    (xs : List String) (hp : s.embedding_provider ∈ generateSupported) :
    ∃ f : String → List ℚ,
      generate_embeddings s stEnv embedEnv xs = .ok (xs.map f) ∧
      (xs.map f).length = xs.length ∧
      ∀ i, i < xs.length → (xs.map f).getD i [] = f (xs.getD i "") := by
  obtain ⟨f, hf⟩ := generate_embeddings_branch s stEnv embedEnv hp
  refine ⟨f, hf xs, List.length_map xs f, ?_⟩
  intro i hi
  rw [List.getD_eq_getElem _ _ (by simpa using hi), List.getD_eq_getElem _ _ hi,
    List.getElem_map]

/-- Witness for C6: the openai branch on a two-element batch. -/
theorem generate_embeddings_order_witness :
    ∃ f : String → List ℚ,
      generate_embeddings ⟨"openai", "openai"⟩ (fun _ _ => [0]) (fun _ _ => [1, 2])
          ["a", "b"] = .ok ((["a", "b"] : List String).map f) ∧
      ((["a", "b"] : List String).map f).length = (["a", "b"] : List String).length ∧
      ∀ i, i < (["a", "b"] : List String).length →
        ((["a", "b"] : List String).map f).getD i []
          = f ((["a", "b"] : List String).getD i "") :=
  generate_embeddings_order ⟨"openai", "openai"⟩ (fun _ _ => [0]) (fun _ _ => [1, 2])
    ["a", "b"] (by simp [generateSupported])

/-- C5: for every batch in which one document has an empty summary
(under a supported provider and valid chunk parameters), the ingestion
run does not raise, the empty-summary document contributes zero stored
rows, and the returned row count equals the sum over the other documents
of their chunk counts. -/
theorem ingest_partial_failure (s : Settings) (stEnv embedEnv : String → String → List ℚ)
    (papers : List Paper) (cs o i : Nat)
    (ho : o < cs) (hp : s.embedding_provider ∈ generateSupported)
    (hi : i < papers.length) (hempty : papers[i].summary = "") :
    ∃ processed : List ProcessedPaper,
      process_papers s stEnv embedEnv cs o papers = .ok processed ∧
      processed.length = papers.length ∧
      run_ingestion s stEnv embedEnv papers cs o
        = .ok ((processed.map fun e => e.chunks.length).sum) ∧
      (processed.map fun e => e.chunks.length).getD i 0 = 0 ∧
      (processed.map fun e => e.chunks.length).sum
        = ((processed.eraseIdx i).map fun e => e.chunks.length).sum := by
  obtain ⟨f, hf⟩ := generate_embeddings_branch s stEnv embedEnv hp
  have hproc := process_papers_ok s stEnv embedEnv cs o ho f hf papers
  have hlens : ∀ e ∈ processedOf f cs o papers, e.chunks.length = e.embeddings.length := by
    intro e he
    obtain ⟨p, hp2, rfl⟩ := List.mem_map.mp (by simpa [processedOf] using he)
    simp
  obtain ⟨values, hv, hvl⟩ := insertValuesOf_ok _ hlens
  have hrun : run_ingestion s stEnv embedEnv papers cs o = .ok values.length := by
    unfold run_ingestion
    rw [hproc]
    simp only [bindOk]
    unfold insert_papers_to_pgvector
    rw [hv]
    rfl
  have hzero : ((processedOf f cs o papers).map fun e => e.chunks.length).getD i 0 = 0 := by
    have hb : i < ((processedOf f cs o papers).map fun e => e.chunks.length).length := by
      simpa [processedOf] using hi
    rw [List.getD_eq_getElem _ _ hb]
    simp only [processedOf, List.getElem_map]
    rw [hempty]
    rfl
  refine ⟨processedOf f cs o papers, hproc, by simp [processedOf], ?_, hzero, ?_⟩
  · rw [hrun, hvl]
  · rw [mapEraseIdx]
    exact sum_eraseIdx_zero _ i (by simpa [processedOf] using hi) hzero

/-- Witness for C5: a two-document batch whose second document has an
empty summary inserts exactly the first document's two chunks. -/
theorem ingest_partial_failure_witness :
    ∃ processed : List ProcessedPaper,
      process_papers ⟨"openai", "x"⟩ (fun _ _ => [0]) (fun _ _ => [1, 2]) 2 0
          [⟨"A", "a b c"⟩, ⟨"B", ""⟩] = .ok processed ∧
      processed.length = ([⟨"A", "a b c"⟩, ⟨"B", ""⟩] : List Paper).length ∧
      run_ingestion ⟨"openai", "x"⟩ (fun _ _ => [0]) (fun _ _ => [1, 2])
          [⟨"A", "a b c"⟩, ⟨"B", ""⟩] 2 0
        = .ok ((processed.map fun e => e.chunks.length).sum) ∧
      (processed.map fun e => e.chunks.length).getD 1 0 = 0 ∧
      (processed.map fun e => e.chunks.length).sum
        = ((processed.eraseIdx 1).map fun e => e.chunks.length).sum :=
  ingest_partial_failure ⟨"openai", "x"⟩ (fun _ _ => [0]) (fun _ _ => [1, 2])
    [⟨"A", "a b c"⟩, ⟨"B", ""⟩] 2 0 1 (by decide) (by simp [generateSupported])
    (by decide) rfl

/-- C1 (I1): under a provider supported by both the Schema Manager and
the Embedding Dispatcher whose endpoint returns vectors of one uniform
length, rebuild_vector_db provisions the recreated table's vector column
with exactly the probe-detected width, every row bulk-inserted during the
run has an embedding of that width, and inserting a vector of any other
length into a provisioned table fails. -/
theorem rebuild_dimension_consistency (s : Settings)
    (stEnv embedEnv : String → String → List ℚ) (papers : List Paper) (cs o : Nat)
    (ho : o < cs)
    (hp : s.embedding_provider ∈ ["openai", "bedrock", "huggingface", "cohere"])
    (hu : ∀ text, (embedEnv s.embedding_provider text).length
        = (embedEnv s.embedding_provider "test").length) :
    ∃ table : PapersTable,
      rebuild_vector_db s stEnv embedEnv papers cs o = .ok table ∧
      table.dim = (embedEnv s.embedding_provider "test").length ∧
      detect_embedding_dim "test" s.embedding_provider embedEnv = .ok table.dim ∧
      (∀ r ∈ table.rows, r.embedding.length = table.dim) ∧
      (∀ (t : PapersTable) (v : InsertValue), v.embedding.length ≠ t.dim →
        insertRow t v = .error "vector dimension mismatch") := by
  have hdet := detect_embedding_dim_remote s.embedding_provider embedEnv hp
  have hgen := generate_embeddings_remote s stEnv embedEnv hp
  have hproc := process_papers_ok s stEnv embedEnv cs o ho
    (embedEnv s.embedding_provider) hgen papers
  have hvals : ∀ v ∈ rebuildValuesOf
      (processedOf (embedEnv s.embedding_provider) cs o papers),
      v.embedding.length = (embedEnv s.embedding_provider "test").length := by
    intro v hv
    obtain ⟨e, he, p, hpz, rfl⟩ := mem_rebuildValuesOf v _ hv
    obtain ⟨q, hq, rfl⟩ := List.mem_map.mp (by simpa [processedOf] using he)
    have hpz2 : p ∈ (chunkListOf q.summary cs o).zip
        ((chunkListOf q.summary cs o).map (embedEnv s.embedding_provider)) := hpz
    rw [zip_map_self] at hpz2
    obtain ⟨c, hc, rfl⟩ := List.mem_map.mp hpz2
    exact hu c
  obtain ⟨table, htab, hdim, hall⟩ :=
    bulkInsert_ok _ ⟨(embedEnv s.embedding_provider "test").length, []⟩ hvals
  refine ⟨table, ?_, hdim, ?_, ?_, ?_⟩
  · unfold rebuild_vector_db
    rw [hdet]
    simp only [bindOk]
    rw [hproc]
    simp only [bindOk]
    exact htab
  · rw [hdim]
    exact hdet
  · intro r hr
    rcases hall r hr with hmem | hlen
    · simp at hmem
    · rw [hdim]
      exact hlen
  · intro t v hne
    simp [insertRow, hne]

/-- Witness for C1: an openai-configured rebuild over one three-word
paper provisions a width-2 column and inserts only width-2 vectors. -/
theorem rebuild_dimension_consistency_witness :
    ∃ table : PapersTable,
      rebuild_vector_db ⟨"openai", "x"⟩ (fun _ _ => [0]) (fun _ _ => [1, 2])
          [⟨"A", "a b c"⟩] 2 0 = .ok table ∧
      table.dim = 2 ∧
      detect_embedding_dim "test" "openai" (fun _ _ => [1, 2]) = .ok table.dim ∧
      (∀ r ∈ table.rows, r.embedding.length = table.dim) ∧
      (∀ (t : PapersTable) (v : InsertValue), v.embedding.length ≠ t.dim →
        insertRow t v = .error "vector dimension mismatch") :=
  rebuild_dimension_consistency ⟨"openai", "x"⟩ (fun _ _ => [0]) (fun _ _ => [1, 2])
    [⟨"A", "a b c"⟩] 2 0 (by decide) (by simp) (fun _ => rfl)

/-- Witness for C8: a concrete credential issued at time 0 is refreshed
again by a call at time 3601. -/
theorem credential_refresh_spec_witness :
    (((CredentialStore.mk none 0).get_credentials 0 ⟨"ak", "sk", "tok"⟩).1.get_credentials
        (0 + 3601) ⟨"ak2", "sk2", "tok2"⟩).2.2 = true :=
  (credential_refresh_spec ⟨none, 0⟩ 0 ⟨"ak", "sk", "tok"⟩ ⟨"ak2", "sk2", "tok2"⟩ 0).2.2.1

/-- C9 (implicit): the query embedding of a retrieval run is independent
of the configured embedding provider — any two configurations yield the
same retrieval output, and the query is always embedded with the
hard-coded local model "all-MiniLM-L6-v2", never via the provider
dispatch that produced the stored vectors. -/
theorem retrieval_query_provider_independent (s₁ s₂ : Settings)
    (stEnv : String → String → List ℚ) (dist : List ℚ → List ℚ → ℚ)
    (rows : List PaperRow) (q : String) (k : Nat) :
    retrieval_run s₁ stEnv dist rows q k = retrieval_run s₂ stEnv dist rows q k ∧
    retrieval_query_embedding s₁ stEnv q = stEnv "all-MiniLM-L6-v2" q ∧
    retrieval_query_embedding s₁ stEnv q = retrieval_query_embedding s₂ stEnv q :=
  ⟨rfl, rfl, rfl⟩

/-- Witness for C9: two runs configured with different embedding
providers retrieve identically. -/
theorem retrieval_query_provider_independent_witness :
    retrieval_run ⟨"openai", "x"⟩ (fun _ _ => [1]) (fun _ _ => 0) [] "q" 3
      = retrieval_run ⟨"cohere", "x"⟩ (fun _ _ => [1]) (fun _ _ => 0) [] "q" 3 :=
  (retrieval_query_provider_independent ⟨"openai", "x"⟩ ⟨"cohere", "x"⟩
    (fun _ _ => [1]) (fun _ _ => 0) [] "q" 3).1

/-- C10 counterexample: provider "google" has a dispatch branch in
detect_embedding_dim (the Schema Manager) but none in generate_embeddings
(the Embedding Dispatcher), so the Schema Manager's provider set is not a
subset of the Embedding Dispatcher's. -/
theorem schema_manager_google_gap :
    detect_embedding_dim "test" "google" (fun _ _ => [1]) = .ok 1 ∧
    generate_embeddings ⟨"google", "openai"⟩ (fun _ _ => [1]) (fun _ _ => [1]) ["t"]
      = .error "Embedding provider not supported: google" := by
  constructor
  · rfl
  · rfl

/-- C10 (amended): the Schema Manager's and the Embedding Dispatcher's
provider sets overlap but neither contains the other; in particular, for
"sentence-transformer" generate_embeddings has a branch and succeeds
while detect_embedding_dim raises the unsupported-provider error, so a
schema rebuild under that provider fails before any paper is processed
or any row inserted. -/
theorem sentence_transformer_schema_gap (stEnv embedEnv : String → String → List ℚ)
    (llm : String) (chunks : List String) (papers : List Paper) (cs o : Nat) :
    generate_embeddings ⟨"sentence-transformer", llm⟩ stEnv embedEnv chunks
      = .ok (chunks.map (stEnv "all-MiniLM-L6-v2")) ∧
    detect_embedding_dim "test" "sentence-transformer" embedEnv
      = .error "Unsupported embedding provider: sentence-transformer" ∧
    rebuild_vector_db ⟨"sentence-transformer", llm⟩ stEnv embedEnv papers cs o
      = .error "Unsupported embedding provider: sentence-transformer" := by
  refine ⟨rfl, rfl, ?_⟩
  unfold rebuild_vector_db
  rfl

/-- Witness for C10: a concrete sentence-transformer rebuild fails with
the unsupported-provider error before touching any paper. -/
theorem sentence_transformer_schema_gap_witness :
    rebuild_vector_db ⟨"sentence-transformer", "x"⟩ (fun _ _ => [1]) (fun _ _ => [1])
        [⟨"A", "a b"⟩] 2 0
      = .error "Unsupported embedding provider: sentence-transformer" :=
  (sentence_transformer_schema_gap (fun _ _ => [1]) (fun _ _ => [1]) "x" []
    [⟨"A", "a b"⟩] 2 0).2.2

end Rag
